import Mathlib

/-!
Shallow embedding of the Cricket Field Planner (React/TypeScript) core:
the position catalog and detection engine (`src/utils/fieldPositions.ts`,
`src/utils/positionDetection.ts`), the scene operations of `src/App.tsx`
(drag-move clamping, rename, history), and the rename-commit handler of
the fielder panel component.

Coordinates are percentages of the canvas, embedded as rationals.  The
source compares Euclidean distances (`Math.sqrt(dx^2+dy^2)`) against each
other and against the constants 12 (snap threshold) and 28 (circle
radius); since all quantities are nonnegative and `sqrt` is strictly
monotone, every such comparison is equivalent to the comparison of the
squared distances against 144 and 784.  The embedding therefore carries
squared distances, which keeps everything inside ℚ and executable.
-/

namespace CricketPlanner

/-- Fielder category tags, from `src/types.ts` (`FielderCategory`). -/
inductive FielderCategory where
  | keeper
  | bowler
  | slip
  | close
  | ring
  | boundary
deriving DecidableEq, Repr

/-- A canonical catalog position, from `src/types.ts` (`Position`). -/
structure Position where
  id : String
  name : String
  label : String
  x : ℚ
  y : ℚ
  category : FielderCategory
deriving DecidableEq, Repr

/-- A placed fielder token, from `src/types.ts` (`Fielder extends Position`). -/
structure Fielder extends Position where
  isActive : Bool
deriving DecidableEq, Repr

/-- A field preset, from `src/types.ts` (`FieldPreset`). -/
structure FieldPreset where
  id : String
  name : String
  description : String
  fielderIds : List String
deriving DecidableEq, Repr

/-- Result of position detection: the anonymous record
`{ name; label; category }` returned by `detectPosition` and
`getRegionalPosition` in `src/utils/positionDetection.ts`. -/
structure DetectedPosition where
  name : String
  label : String
  category : FielderCategory
deriving DecidableEq, Repr

/-- The catalog `ALL_POSITIONS` of `src/utils/fieldPositions.ts`, verbatim. -/
def ALL_POSITIONS : List Position := [
  -- Keeper & Bowler
  ⟨"wk", "Wicketkeeper", "WK", 50, 30, .keeper⟩,
  ⟨"bowler", "Bowler", "Bowler", 50, 72, .bowler⟩,
  -- Boundary, behind wicket
  ⟨"third_man", "Third Man", "3rd Man", 20, 10, .boundary⟩,
  ⟨"fine_leg", "Fine Leg", "Fine Leg", 80, 10, .boundary⟩,
  -- Slip cordon
  ⟨"slip1", "1st Slip", "1st Slip", 44, 26, .slip⟩,
  ⟨"slip2", "2nd Slip", "2nd Slip", 41, 27, .slip⟩,
  ⟨"slip3", "3rd Slip", "3rd Slip", 38, 28, .slip⟩,
  ⟨"slip4", "4th Slip", "4th Slip", 35, 29, .slip⟩,
  -- Close catchers
  ⟨"gully", "Gully", "Gully", 30, 32, .close⟩,
  ⟨"leg_slip", "Leg Slip", "Leg Slip", 56, 26, .close⟩,
  ⟨"leg_gully", "Leg Gully", "Leg Gully", 68, 32, .close⟩,
  ⟨"short_leg", "Short Leg", "Short Leg", 60, 36, .close⟩,
  ⟨"silly_point", "Silly Point", "Silly Pt", 42, 36, .close⟩,
  ⟨"backward_square", "Backward Square Leg", "Bwd Sq", 72, 34, .close⟩,
  -- Ring field, off side
  ⟨"point", "Point", "Point", 26, 42, .ring⟩,
  ⟨"backward_point", "Backward Point", "Bwd Pt", 26, 36, .ring⟩,
  ⟨"cover", "Cover", "Cover", 28, 52, .ring⟩,
  ⟨"extra_cover", "Extra Cover", "Ex Cover", 34, 58, .ring⟩,
  ⟨"mid_off", "Mid Off", "Mid Off", 38, 64, .ring⟩,
  -- Ring field, leg side
  ⟨"mid_on", "Mid On", "Mid On", 62, 64, .ring⟩,
  ⟨"mid_wicket", "Mid Wicket", "Mid Wkt", 72, 52, .ring⟩,
  ⟨"square_leg", "Square Leg", "Sq Leg", 72, 42, .ring⟩,
  -- Boundary, deep positions
  ⟨"deep_point", "Deep Point", "Dp Point", 12, 42, .boundary⟩,
  ⟨"deep_square", "Deep Square Leg", "Dp Sq Leg", 88, 42, .boundary⟩,
  ⟨"sweeper", "Sweeper", "Sweeper", 90, 48, .boundary⟩,
  ⟨"deep_cover", "Deep Cover", "Dp Cover", 14, 52, .boundary⟩,
  ⟨"deep_mid_wicket", "Deep Mid Wicket", "Dp MWkt", 86, 52, .boundary⟩,
  ⟨"deep_mid_off", "Deep Mid Off", "Dp Mid Off", 30, 76, .boundary⟩,
  ⟨"deep_mid_on", "Deep Mid On", "Dp Mid On", 70, 76, .boundary⟩,
  -- Boundary, long positions
  ⟨"long_off", "Long Off", "Long Off", 35, 88, .boundary⟩,
  ⟨"long_on", "Long On", "Long On", 65, 88, .boundary⟩,
  ⟨"cow_corner", "Cow Corner", "Cow Cnr", 80, 82, .boundary⟩]

/-- Squared Euclidean distance.  The source computes
`Math.sqrt(Math.pow(ax-bx,2) + Math.pow(ay-by,2))`; we keep the square. -/
def distSq (ax ay bx bY : ℚ) : ℚ :=
  (ax - bx) * (ax - bx) + (ay - bY) * (ay - bY)

/-- Circle constant `CIRCLE_CENTER_X` of `src/utils/positionDetection.ts`. -/
def CIRCLE_CENTER_X : ℚ := 50

/-- Circle constant `CIRCLE_CENTER_Y` of `src/utils/positionDetection.ts`. -/
def CIRCLE_CENTER_Y : ℚ := 50

/-- Circle constant `CIRCLE_RADIUS` (28) of `src/utils/positionDetection.ts`. -/
def CIRCLE_RADIUS : ℚ := 28

/-- `isInsideCircle` of `src/utils/positionDetection.ts`:
distance from the center is at most the radius (squared form). -/
def isInsideCircle (x y : ℚ) : Bool :=
  decide (distSq x y CIRCLE_CENTER_X CIRCLE_CENTER_Y ≤ CIRCLE_RADIUS * CIRCLE_RADIUS)

/-- Whether a catalog entry is skipped by the nearest-neighbor loop of
`detectPosition` (`if (pos.id === 'wk' || pos.id === 'bowler') continue`). -/
def isFixedRole (p : Position) : Bool :=
  p.id = "wk" || p.id = "bowler"

/-- One iteration of the nearest-neighbor loop of `detectPosition`
(`src/utils/positionDetection.ts` lines 27-39): skip the keeper and
bowler, otherwise replace the best candidate when the (squared) distance
is strictly smaller (`distance < minDistance`), so ties keep the earlier
entry. -/
def closestStep (ax ay : ℚ) (best : Option (Position × ℚ)) (pos : Position) :
    Option (Position × ℚ) :=
  if isFixedRole pos then best
  else
    let d := distSq ax ay pos.x pos.y
    match best with
    | none => some (pos, d)
    | some pd => if d < pd.2 then some (pos, d) else some pd

/-- The nearest-neighbor loop of `detectPosition`
(`src/utils/positionDetection.ts` lines 24-39): fold over the catalog with
`closestStep`.  `minDistance` starts at `Infinity` and `closestPosition`
at `null`, embedded as the initial accumulator `none`, which the first
non-skipped entry always replaces. -/
def findClosest (ax ay : ℚ) (ps : List Position) : Option (Position × ℚ) :=
  ps.foldl (closestStep ax ay) none

/-- `getRegionalPosition` of `src/utils/positionDetection.ts`:
procedural region classification used when no catalog entry is within the
snap threshold.  Category defaults to ring/boundary by the circle test and
is overridden in the `y < 25`, `25 ≤ y < 35` and `y ≥ 80` bands. -/
def getRegionalPosition (x y : ℚ) : DetectedPosition :=
  let isOffSide : Bool := decide (x < 50)
  let insideCircle : Bool := isInsideCircle x y
  let defaultCategory : FielderCategory := if insideCircle then .ring else .boundary
  if y < 25 then
    -- Behind wicket: category forced to boundary
    if isOffSide then ⟨"Third Man", "3rd Man", .boundary⟩
    else ⟨"Fine Leg", "Fine Leg", .boundary⟩
  else if y < 35 then
    -- Slip/close area: category forced to slip or close
    if isOffSide then
      if 35 < x then ⟨"Slips Area", "Slips", .slip⟩
      else ⟨"Gully", "Gully", .close⟩
    else
      if x < 60 then ⟨"Leg Slip", "Leg Slip", .close⟩
      else ⟨"Leg Gully", "Leg Gully", .close⟩
  else if y < 50 then
    if isOffSide then
      if insideCircle then ⟨"Point", "Point", defaultCategory⟩
      else ⟨"Deep Point", "Dp Point", defaultCategory⟩
    else
      if insideCircle then ⟨"Square Leg", "Sq Leg", defaultCategory⟩
      else
        if 85 < x then ⟨"Sweeper", "Sweeper", defaultCategory⟩
        else ⟨"Deep Square Leg", "Dp Sq Leg", defaultCategory⟩
  else if y < 65 then
    if isOffSide then
      if insideCircle then ⟨"Cover", "Cover", defaultCategory⟩
      else ⟨"Deep Cover", "Dp Cover", defaultCategory⟩
    else
      if insideCircle then ⟨"Mid Wicket", "Mid Wkt", defaultCategory⟩
      else ⟨"Deep Mid Wicket", "Dp MWkt", defaultCategory⟩
  else if y < 80 then
    if isOffSide then
      if insideCircle then ⟨"Mid Off", "Mid Off", defaultCategory⟩
      else ⟨"Deep Mid Off", "Dp Mid Off", defaultCategory⟩
    else
      if insideCircle then ⟨"Mid On", "Mid On", defaultCategory⟩
      else
        if 75 < x then ⟨"Cow Corner", "Cow Cnr", defaultCategory⟩
        else ⟨"Deep Mid On", "Dp Mid On", defaultCategory⟩
  else
    -- Long positions: category forced to boundary
    if isOffSide then ⟨"Long Off", "Long Off", .boundary⟩
    else
      if 75 < x then ⟨"Cow Corner", "Cow Cnr", .boundary⟩
      else ⟨"Long On", "Long On", .boundary⟩

/-- `detectPosition` of `src/utils/positionDetection.ts`.  The declared
TypeScript return type is nullable, hence the `Option`; the snap test
`minDistance < 12` becomes `d < 144` on squared distances. -/
def detectPosition (x y : ℚ) (isLeftHanded : Bool) : Option DetectedPosition :=
  let adjustedX := if isLeftHanded then 100 - x else x
  match findClosest adjustedX y ALL_POSITIONS with
  | some pd =>
      if pd.2 < 12 * 12 then
        some ⟨pd.1.name, pd.1.label, pd.1.category⟩
      else
        some (getRegionalPosition adjustedX y)
  | none => some (getRegionalPosition adjustedX y)

/-- The preset table `FIELD_PRESETS` of `src/utils/fieldPositions.ts`, verbatim. -/
def FIELD_PRESETS : List FieldPreset := [
  ⟨"standard", "Standard", "Balanced field for medium-pace bowling",
   ["wk", "bowler", "slip1", "slip2", "gully", "point", "cover", "mid_off",
    "mid_on", "mid_wicket", "fine_leg"]⟩,
  ⟨"attacking", "Attacking", "Aggressive field for taking wickets",
   ["wk", "bowler", "slip1", "slip2", "slip3", "gully", "short_leg",
    "silly_point", "point", "mid_off", "mid_on"]⟩,
  ⟨"defensive", "Defensive", "Spread field to stop runs",
   ["wk", "bowler", "cover", "extra_cover", "mid_off", "mid_on", "mid_wicket",
    "square_leg", "long_off", "long_on", "fine_leg"]⟩,
  ⟨"powerplay", "Powerplay", "Limited overs powerplay field (max 2 outside circle)",
   ["wk", "bowler", "slip1", "gully", "point", "cover", "mid_off", "mid_on",
    "mid_wicket", "square_leg", "third_man"]⟩,
  ⟨"death", "Death Overs", "Death overs field with boundary riders",
   ["wk", "bowler", "deep_point", "deep_cover", "long_off", "long_on",
    "deep_mid_wicket", "deep_square", "sweeper", "third_man", "point"]⟩,
  ⟨"spin", "Spin Attack", "Field for spin bowling",
   ["wk", "bowler", "slip1", "silly_point", "short_leg", "point", "cover",
    "mid_off", "mid_on", "mid_wicket", "deep_mid_wicket"]⟩]

/-- `getPresetFielders` of `src/utils/fieldPositions.ts`: look up the preset,
returning an empty list when the id is unknown, otherwise copy each listed
catalog position into a fielder with `isActive := true` (ids missing from
the catalog are dropped by the `filter` on the mapped `null`s, embedded
here as `filterMap`). -/
def getPresetFielders (presetId : String) : List Fielder :=
  match FIELD_PRESETS.find? (fun p => p.id = presetId) with
  | none => []
  | some preset =>
      preset.fielderIds.filterMap (fun i =>
        match ALL_POSITIONS.find? (fun p => p.id = i) with
        | none => none
        | some pos => some ⟨pos, true⟩)

/-- `handleRenameFielder` of `src/App.tsx`: map over the fielders, setting
both `name` and `label` to `newName` on the token whose id matches. -/
def handleRenameFielder (fielders : List Fielder) (i newName : String) : List Fielder :=
  fielders.map (fun f =>
    if f.id = i then { f with name := newName, label := newName } else f)

/-- JS `String.prototype.trim` as used by the fielder panel: strip leading
and trailing whitespace characters. -/
def trimStr (s : String) : String :=
  ⟨((s.data.dropWhile Char.isWhitespace).reverse.dropWhile Char.isWhitespace).reverse⟩

/-- `handleSaveEdit` of the fielder panel component: commit the edit only
when a token is being edited and the trimmed input is non-empty (JS
truthiness of `editValue.trim()`); the rename receives the trimmed value. -/
def handleSaveEdit (fielders : List Fielder) (editingId : Option String)
    (editValue : String) : List Fielder :=
  match editingId with
  | some i => if trimStr editValue ≠ "" then handleRenameFielder fielders i (trimStr editValue)
              else fielders
  | none => fielders

/-- The per-fielder update closure inside `setFielders` of
`handleMouseMove` (`src/App.tsx` lines 135-148): the dragged token gets
the stored coordinates and the detected name/label/category, every other
token is returned unchanged.  `detectedPosition?.name || f.name` is JS:
`undefined` (detector returned null) or the empty string fall back to the
old value. -/
def dragUpdate (dragId : String) (storedX clampedY : ℚ)
    (detectedPosition : Option DetectedPosition) (f : Fielder) : Fielder :=
  if f.id = dragId then
    { f with
      x := storedX,
      y := clampedY,
      name := match detectedPosition with
              | some d => if d.name = "" then f.name else d.name
              | none => f.name,
      label := match detectedPosition with
               | some d => if d.label = "" then f.label else d.label
               | none => f.label,
      category := match detectedPosition with
                  | some d => d.category
                  | none => f.category }
  else f

/-- The coordinate-update core of `handleMouseMove` in `src/App.tsx`: the
raw pointer position, already normalized to percentages (lines 122-123),
is clamped to `[3,97]`, un-mirrored for storage, run through the detector,
and merged into the dragged fielder via `dragUpdate`. -/
def handleMouseMove (fielders : List Fielder) (draggingId : Option String)
    (isLeftHanded : Bool) (x y : ℚ) : List Fielder :=
  match draggingId with
  | none => fielders
  | some dragId =>
      let clampedX := max 3 (min 97 x)
      let clampedY := max 3 (min 97 y)
      let storedX := if isLeftHanded then 100 - clampedX else clampedX
      let detectedPosition := detectPosition storedX clampedY isLeftHanded
      fielders.map (dragUpdate dragId storedX clampedY detectedPosition)

/-- The undo/redo state of `src/App.tsx`: the current snapshot (the
`fielders`/`isLeftHanded` pair, abstracted to a payload type `α`), the
`history` array and the `historyIndex`. -/
structure AppHistory (α : Type) where
  current : α
  history : List α
  index : Nat
deriving DecidableEq, Repr

/-- One committed mutation in `src/App.tsx`: the state setter (for example
`setFielders` in `handlePresetChange` or on drag end) stores the new
snapshot, and `addToHistory` truncates redo states
(`prev.slice(0, historyIndex + 1)`), appends the snapshot, keeps the last
50 entries (`slice(-50)`) and advances `historyIndex` to at most 49. -/
def commitSnapshot {α : Type} (st : AppHistory α) (snap : α) : AppHistory α :=
  let newHistory := st.history.take (st.index + 1) ++ [snap]
  { current := snap,
    history := newHistory.drop (newHistory.length - 50),
    index := min (st.index + 1) 49 }

/-- `handleUndo` of `src/App.tsx`: when `historyIndex > 0`, restore
`history[historyIndex - 1]` and decrement the index; otherwise do nothing. -/
def handleUndo {α : Type} (st : AppHistory α) : AppHistory α :=
  if 0 < st.index then
    { current := st.history.getD (st.index - 1) st.current,
      history := st.history,
      index := st.index - 1 }
  else st

/-- The initial history of `src/App.tsx`: one entry holding the initial
snapshot, `historyIndex = 0`.  Payload `0` stands for the initial
standard-preset snapshot; the pushed snapshots of the 60-push scenario are
numbered `1..60`. -/
def initialHistory : AppHistory ℕ :=
  { current := 0, history := [0], index := 0 }

/-! ### Lemmas about the nearest-neighbor fold -/

/-- Invariant of the nearest-neighbor fold: a result that did not come
straight from the accumulator is a non-skipped member of the list, paired
with its own squared distance. -/
lemma foldl_closestStep_inv (ax ay : ℚ) :
    ∀ (ps : List Position) (acc : Option (Position × ℚ)) (r : Position × ℚ),
      ps.foldl (closestStep ax ay) acc = some r →
      acc = some r ∨
        (r.1 ∈ ps ∧ isFixedRole r.1 = false ∧ r.2 = distSq ax ay r.1.x r.1.y) := by
  intro ps
  induction ps with
  | nil => intro acc r h; exact Or.inl h
  | cons p ps ih =>
      intro acc r h
      rw [List.foldl_cons] at h
      rcases ih (closestStep ax ay acc p) r h with hstep | ⟨hmem, hrole, hdist⟩
      · unfold closestStep at hstep
        by_cases hfix : isFixedRole p
        · rw [if_pos hfix] at hstep
          exact Or.inl hstep
        · rw [if_neg hfix] at hstep
          simp only [Bool.not_eq_true] at hfix
          cases acc with
          | none =>
              simp only at hstep
              cases hstep
              exact Or.inr ⟨List.mem_cons_self .., hfix, rfl⟩
          | some pd =>
              simp only at hstep
              by_cases hlt : distSq ax ay p.x p.y < pd.2
              · rw [if_pos hlt] at hstep
                cases hstep
                exact Or.inr ⟨List.mem_cons_self .., hfix, rfl⟩
              · rw [if_neg hlt] at hstep
                exact Or.inl hstep
      · exact Or.inr ⟨List.mem_cons_of_mem _ hmem, hrole, hdist⟩

/-- A successful nearest-neighbor search returns a non-skipped catalog
member together with its own squared distance. -/
lemma findClosest_mem {ax ay : ℚ} {ps : List Position} {r : Position × ℚ}
    (h : findClosest ax ay ps = some r) :
    r.1 ∈ ps ∧ isFixedRole r.1 = false ∧ r.2 = distSq ax ay r.1.x r.1.y := by
  rcases foldl_closestStep_inv ax ay ps none r h with hacc | hres
  · exact absurd hacc (by simp)
  · exact hres

/-- Non-skipped catalog entries never carry the keeper or bowler category:
only the `wk` and `bowler` entries do. -/
lemma catalog_no_fixed_category :
    ∀ p ∈ ALL_POSITIONS, isFixedRole p = false →
      p.category ≠ FielderCategory.keeper ∧ p.category ≠ FielderCategory.bowler := by
  decide

/-- The procedural regional classifier only produces the categories
ring, boundary, slip and close. -/
lemma getRegionalPosition_no_fixed_category (x y : ℚ) :
    (getRegionalPosition x y).category ≠ FielderCategory.keeper ∧
      (getRegionalPosition x y).category ≠ FielderCategory.bowler := by
  simp only [getRegionalPosition]
  split_ifs <;> simp

/-- Zeta-reduced form of `detectPosition`, for syntactic rewriting. -/
lemma detectPosition_unfold (x y : ℚ) (m : Bool) :
    detectPosition x y m =
      match findClosest (if m then 100 - x else x) y ALL_POSITIONS with
      | some pd =>
          if pd.2 < 12 * 12 then some ⟨pd.1.name, pd.1.label, pd.1.category⟩
          else some (getRegionalPosition (if m then 100 - x else x) y)
      | none => some (getRegionalPosition (if m then 100 - x else x) y) := rfl

/-! ### C1 -/

/-- C1: for every input coordinate pair and mirror flag, `detectPosition`
returns a result (a catalog match or the synthesized regional fallback)
and never returns `null`, even though its declared return type admits it. -/
theorem detectPosition_never_fails (x y : ℚ) (m : Bool) :
    (detectPosition x y m).isSome = true := by
  rw [detectPosition_unfold]
  cases h : findClosest (if m then 100 - x else x) y ALL_POSITIONS with
  | none => rfl
  | some pd => dsimp only; split <;> rfl

/-! ### C4 -/

/-- C4: the mirror flag only reflects the x-coordinate before all
subsequent computation, so `detectPosition x y true` equals
`detectPosition (100 - x) y false`. -/
theorem detectPosition_mirror (x y : ℚ) :
    detectPosition x y true = detectPosition (100 - x) y false := by
  rw [detectPosition_unfold, detectPosition_unfold]
  rw [show (if (true : Bool) then 100 - x else x) = 100 - x from rfl,
      show (if (false : Bool) then 100 - (100 - x) else 100 - x) = 100 - x from rfl]

/-! ### C2 -/

set_option maxHeartbeats 4000000 in
/-- C2: every catalog entry other than the keeper and the bowler is
detected exactly at its own coordinate with the mirror flag off: the
result carries that entry's name, label and category. -/
theorem detectPosition_catalog_exact :
    ∀ p ∈ ALL_POSITIONS, p.id ≠ "wk" → p.id ≠ "bowler" →
      detectPosition p.x p.y false = some ⟨p.name, p.label, p.category⟩ := by
  with_unfolding_all decide

set_option maxHeartbeats 1600000 in
/-- Witness for C2: the catalog `cover` coordinate (28, 52) is detected
as `Cover` with category `ring`. -/
theorem detectPosition_catalog_exact_witness :
    detectPosition 28 52 false = some ⟨"Cover", "Cover", FielderCategory.ring⟩ :=
  detectPosition_catalog_exact ⟨"cover", "Cover", "Cover", 28, 52, FielderCategory.ring⟩
    (by with_unfolding_all decide) (by decide) (by decide)

/-! ### C3 -/

/-- In the bands `35 ≤ y < 80` the regional classifier keeps the default
category: ring inside the circle, boundary outside; for `y ≥ 80` the
category is forced to boundary, which agrees with the default because
such a point always lies outside the circle. -/
lemma getRegionalPosition_category_of_ge35 (x y : ℚ) (hy : 35 ≤ y) :
    (getRegionalPosition x y).category =
      if isInsideCircle x y then FielderCategory.ring else FielderCategory.boundary := by
  have h25 : ¬ y < 25 := by linarith
  have h35 : ¬ y < 35 := by linarith
  simp only [getRegionalPosition, if_neg h25, if_neg h35]
  by_cases h80 : y < 80
  · split_ifs <;> rfl
  · have hout : ¬ isInsideCircle x y = true := by
      simp only [isInsideCircle, distSq, CIRCLE_CENTER_X, CIRCLE_CENTER_Y, CIRCLE_RADIUS,
        decide_eq_true_eq, not_le]
      nlinarith [mul_self_nonneg (x - 50)]
    have h50 : ¬ y < 50 := by linarith
    have h65 : ¬ y < 65 := by linarith
    simp only [if_neg h50, if_neg h65, if_neg h80, if_neg hout]
    split_ifs <;> rfl

/-- Below the behind-wicket threshold the regional classifier always
returns category boundary. -/
lemma getRegionalPosition_category_of_lt25 (x y : ℚ) (hy : y < 25) :
    (getRegionalPosition x y).category = FielderCategory.boundary := by
  simp only [getRegionalPosition, if_pos hy]
  split_ifs <;> rfl

/-- A point of the behind-wicket band (`y < 25`) that is at least the
snap threshold away from both the first slip (44, 26) and the leg slip
(56, 26) lies outside the circle: the in-circle part of that band is
entirely covered by those two snap radii. -/
lemma fallback_lt25_outside_circle (x y : ℚ)
    (hs1 : 144 ≤ distSq x y 44 26) (hs2 : 144 ≤ distSq x y 56 26)
    (hy : y < 25) : isInsideCircle x y = false := by
  simp only [distSq] at hs1 hs2
  simp only [isInsideCircle, distSq, CIRCLE_CENTER_X, CIRCLE_CENTER_Y, CIRCLE_RADIUS,
    decide_eq_false_iff_not, not_le]
  by_contra hin
  push_neg at hin
  have hyl : 22 ≤ y := by nlinarith [sq_nonneg (x - 50)]
  rcases le_total x 50 with hx | hx
  · nlinarith [sq_nonneg (x - 44), sq_nonneg (y - 26), sq_nonneg (y - 50), sq_nonneg (x - 50)]
  · nlinarith [sq_nonneg (x - 56), sq_nonneg (y - 26), sq_nonneg (y - 50), sq_nonneg (x - 50)]

/-- Counterexample to C3 as stated: the point (10, 30) is at squared
distance at least 144 from every non-fixed catalog entry (so the detector
falls back to the regional classifier) and lies outside the circle, yet
the returned category is `close` (the regional `Gully`), not `boundary`:
in the band `25 ≤ y < 35` the fallback overrides the circle-based default
with slip/close categories. -/
theorem detectPosition_fallback_category_cex :
    (∀ p ∈ ALL_POSITIONS, ¬(p.id = "wk" ∨ p.id = "bowler") →
        144 ≤ distSq 10 30 p.x p.y) ∧
      isInsideCircle 10 30 = false ∧
      detectPosition 10 30 false = some ⟨"Gully", "Gully", FielderCategory.close⟩ ∧
      FielderCategory.close ≠ FielderCategory.boundary := by
  with_unfolding_all decide

/-- C3 as amended: for fallback points (every non-fixed catalog entry at
least the snap threshold away) outside the slip/close band — that is,
with `y < 25` or `35 ≤ y` — the returned category is ring when the point
is inside the circle and boundary when it is outside.  (As stated the
claim is false inside the band `25 ≤ y < 35`, where the fallback returns
slip or close; for `y < 25` a fallback point is necessarily outside the
circle and the forced boundary category agrees with the claim.) -/
theorem detectPosition_fallback_category (x y : ℚ) (hy : y < 25 ∨ 35 ≤ y)
    (hfar : ∀ p ∈ ALL_POSITIONS, ¬(p.id = "wk" ∨ p.id = "bowler") →
      144 ≤ distSq x y p.x p.y)
    (r : DetectedPosition) (h : detectPosition x y false = some r) :
    (isInsideCircle x y = true → r.category = FielderCategory.ring) ∧
      (isInsideCircle x y = false → r.category = FielderCategory.boundary) := by
  have hreg : ∀ hr : r = getRegionalPosition x y,
      (isInsideCircle x y = true → r.category = FielderCategory.ring) ∧
        (isInsideCircle x y = false → r.category = FielderCategory.boundary) := by
    intro hr
    subst hr
    cases hy with
    | inr h35 =>
        rw [getRegionalPosition_category_of_ge35 x y h35]
        constructor
        · intro hin; rw [if_pos hin]
        · intro hout; rw [if_neg (by simp [hout])]
    | inl h25 =>
        have hout : isInsideCircle x y = false :=
          fallback_lt25_outside_circle x y
            (hfar ⟨"slip1", "1st Slip", "1st Slip", 44, 26, FielderCategory.slip⟩
              (by decide) (by decide))
            (hfar ⟨"leg_slip", "Leg Slip", "Leg Slip", 56, 26, FielderCategory.close⟩
              (by decide) (by decide))
            h25
        constructor
        · intro hin; rw [hin] at hout; exact absurd hout (by simp)
        · intro hmm; exact getRegionalPosition_category_of_lt25 x y h25
  rw [detectPosition_unfold] at h
  rw [show (if (false : Bool) then 100 - x else x) = x from rfl] at h
  cases hc : findClosest x y ALL_POSITIONS with
  | none =>
      rw [hc] at h
      dsimp only at h
      exact hreg (Option.some_inj.mp h).symm
  | some pd =>
      rw [hc] at h
      dsimp only at h
      obtain ⟨hmem, hrole, hdist⟩ := findClosest_mem hc
      have hge : (144 : ℚ) ≤ pd.2 := by
        rw [hdist]
        exact hfar pd.1 hmem (by simp [isFixedRole] at hrole; simpa using hrole)
      rw [if_neg (by norm_num; linarith)] at h
      exact hreg (Option.some_inj.mp h).symm

/-- Witness for C3 (amended): the point (50, 50) is a fallback point with
`y ≥ 35` inside the circle, and the detector classifies it as the regional
`Mid Wicket` with category ring. -/
theorem detectPosition_fallback_category_witness :
    (35 : ℚ) ≤ 50 ∧
      (DetectedPosition.mk "Mid Wicket" "Mid Wkt" FielderCategory.ring).category =
        FielderCategory.ring := by
  refine ⟨by norm_num, ?_⟩
  exact (detectPosition_fallback_category 50 50 (Or.inr (by norm_num))
    (by with_unfolding_all decide)
    ⟨"Mid Wicket", "Mid Wkt", FielderCategory.ring⟩
    (by with_unfolding_all decide)).1 (by with_unfolding_all decide)

/-! ### C10 -/

/-- C10: the detector never returns category keeper or bowler: the two
fixed-role catalog entries are skipped in the nearest-neighbor search and
the regional fallback only produces ring, boundary, slip or close. -/
theorem detectPosition_no_fixed_roles (x y : ℚ) (m : Bool) (r : DetectedPosition)
    (h : detectPosition x y m = some r) :
    r.category ≠ FielderCategory.keeper ∧ r.category ≠ FielderCategory.bowler := by
  rw [detectPosition_unfold] at h
  cases hc : findClosest (if m then 100 - x else x) y ALL_POSITIONS with
  | none =>
      rw [hc] at h
      simp only [Option.some_inj] at h
      subst h
      exact getRegionalPosition_no_fixed_category ..
  | some pd =>
      rw [hc] at h
      dsimp only at h
      by_cases hlt : pd.2 < 12 * 12
      · rw [if_pos hlt, Option.some_inj] at h
        subst h
        obtain ⟨hmem, hrole, -⟩ := findClosest_mem hc
        exact catalog_no_fixed_category pd.1 hmem hrole
      · rw [if_neg hlt, Option.some_inj] at h
        subst h
        exact getRegionalPosition_no_fixed_category ..

set_option maxHeartbeats 1600000 in
/-- Witness for C10: at the origin with the mirror flag off the detector
returns the regional `Third Man`, whose category is neither keeper nor
bowler. -/
theorem detectPosition_no_fixed_roles_witness :
    (DetectedPosition.mk "Third Man" "3rd Man" FielderCategory.boundary).category ≠
        FielderCategory.keeper ∧
      (DetectedPosition.mk "Third Man" "3rd Man" FielderCategory.boundary).category ≠
        FielderCategory.bowler :=
  detectPosition_no_fixed_roles 0 0 false
    ⟨"Third Man", "3rd Man", FielderCategory.boundary⟩ (by with_unfolding_all decide)

/-! ### C5 -/

/-- Zeta-reduced form of `handleMouseMove` on an active drag, for
syntactic rewriting. -/
lemma handleMouseMove_some (fielders : List Fielder) (dragId : String)
    (m : Bool) (x y : ℚ) :
    handleMouseMove fielders (some dragId) m x y =
      fielders.map (dragUpdate dragId
        (if m then 100 - max 3 (min 97 x) else max 3 (min 97 x))
        (max 3 (min 97 y))
        (detectPosition (if m then 100 - max 3 (min 97 x) else max 3 (min 97 x))
          (max 3 (min 97 y)) m)) := rfl

/-- C5: whatever the raw pointer coordinates (including values outside
[0, 100]) and mirror orientation, the coordinates stored into the dragged
fielder always lie within [3, 97]; in particular the un-mirroring step
`storedX = 100 - clampedX` preserves the bound. -/
theorem handleMouseMove_clamped (fielders : List Fielder) (dragId : String)
    (m : Bool) (x y : ℚ) :
    ∀ f ∈ handleMouseMove fielders (some dragId) m x y, f.id = dragId →
      3 ≤ f.x ∧ f.x ≤ 97 ∧ 3 ≤ f.y ∧ f.y ≤ 97 := by
  intro f hf hid
  rw [handleMouseMove_some] at hf
  obtain ⟨g, hg, hfg⟩ := List.mem_map.mp hf
  have hcx1 : (3 : ℚ) ≤ max 3 (min 97 x) := le_max_left _ _
  have hcx2 : max 3 (min 97 x) ≤ (97 : ℚ) := max_le (by norm_num) (min_le_left _ _)
  have hcy1 : (3 : ℚ) ≤ max 3 (min 97 y) := le_max_left _ _
  have hcy2 : max 3 (min 97 y) ≤ (97 : ℚ) := max_le (by norm_num) (min_le_left _ _)
  have hsx1 : (3 : ℚ) ≤ (if m then 100 - max 3 (min 97 x) else max 3 (min 97 x)) := by
    split
    · linarith
    · linarith
  have hsx2 : (if m then 100 - max 3 (min 97 x) else max 3 (min 97 x)) ≤ (97 : ℚ) := by
    split
    · linarith
    · linarith
  by_cases hgid : g.id = dragId
  · rw [← hfg]
    simp only [dragUpdate, if_pos hgid]
    exact ⟨hsx1, hsx2, hcy1, hcy2⟩
  · exfalso
    rw [← hfg] at hid
    simp only [dragUpdate, if_neg hgid] at hid
    exact hgid hid

/-- Witness for C5: dragging the keeper token to the raw point (200, -7)
unmirrored stores it at (97, 3), detected as the regional `Fine Leg`. -/
theorem handleMouseMove_clamped_witness :
    3 ≤ (Fielder.mk ⟨"wk", "Fine Leg", "Fine Leg", 97, 3, FielderCategory.boundary⟩ true).x ∧
      (Fielder.mk ⟨"wk", "Fine Leg", "Fine Leg", 97, 3, FielderCategory.boundary⟩ true).x ≤ 97 ∧
      3 ≤ (Fielder.mk ⟨"wk", "Fine Leg", "Fine Leg", 97, 3, FielderCategory.boundary⟩ true).y ∧
      (Fielder.mk ⟨"wk", "Fine Leg", "Fine Leg", 97, 3, FielderCategory.boundary⟩ true).y ≤ 97 :=
  handleMouseMove_clamped
    [⟨⟨"wk", "Wicketkeeper", "WK", 50, 30, FielderCategory.keeper⟩, true⟩]
    "wk" false 200 (-7)
    ⟨⟨"wk", "Fine Leg", "Fine Leg", 97, 3, FielderCategory.boundary⟩, true⟩
    (by with_unfolding_all decide) (by decide)

/-! ### C6 -/

set_option maxRecDepth 4000 in
/-- C6: the history is bounded by the 50 most recent snapshots, discarding
the oldest on overflow: every commit leaves at most 50 entries; pushing 60
snapshots (numbered 1..60 after the initial snapshot 0) retains exactly
the last 50 (11..60); 49 undos from the end reach the oldest retained
snapshot 11, and a 50th undo is a no-op, never reaching an older state. -/
theorem history_bounded :
    (∀ (α : Type) (st : AppHistory α) (s : α),
        (commitSnapshot st s).history.length ≤ 50) ∧
      ((List.range' 1 60).foldl commitSnapshot initialHistory).history =
        List.range' 11 50 ∧
      (handleUndo^[49] ((List.range' 1 60).foldl commitSnapshot initialHistory)).current =
        11 ∧
      handleUndo^[50] ((List.range' 1 60).foldl commitSnapshot initialHistory) =
        handleUndo^[49] ((List.range' 1 60).foldl commitSnapshot initialHistory) := by
  refine ⟨?_, by decide, by decide, by decide⟩
  intro α st s
  simp only [commitSnapshot, List.length_drop]
  omega

/-! ### C7 -/

/-- C7: renaming sets only the matching token's name and label (both to
the new name), leaving its coordinates, category, id and activity flag
untouched, and leaves every other token unchanged at its position in the
list; hence renaming a token to its current name is a no-op on the rest of
the scene. -/
theorem handleRenameFielder_frame (fielders : List Fielder) (tid newName : String) :
    (handleRenameFielder fielders tid newName).length = fielders.length ∧
      (∀ i : ℕ, ∀ f, fielders[i]? = some f → f.id ≠ tid →
        (handleRenameFielder fielders tid newName)[i]? = some f) ∧
      (∀ i : ℕ, ∀ f, fielders[i]? = some f → f.id = tid →
        (handleRenameFielder fielders tid newName)[i]? =
          some { f with name := newName, label := newName }) := by
  refine ⟨by simp [handleRenameFielder], ?_, ?_⟩
  · intro i f hf hneq
    simp [handleRenameFielder, List.getElem?_map, hf, hneq]
  · intro i f hf heq
    simp [handleRenameFielder, List.getElem?_map, hf, heq]

/-- Witness for C7: renaming the bowler in a two-token scene leaves the
keeper untouched at index 0 and rewrites only name/label at index 1. -/
theorem handleRenameFielder_frame_witness :
    (handleRenameFielder
        [⟨⟨"wk", "Wicketkeeper", "WK", 50, 30, FielderCategory.keeper⟩, true⟩,
         ⟨⟨"bowler", "Bowler", "Bowler", 50, 72, FielderCategory.bowler⟩, true⟩]
        "bowler" "Speedster")[0]? =
      some ⟨⟨"wk", "Wicketkeeper", "WK", 50, 30, FielderCategory.keeper⟩, true⟩ ∧
    (handleRenameFielder
        [⟨⟨"wk", "Wicketkeeper", "WK", 50, 30, FielderCategory.keeper⟩, true⟩,
         ⟨⟨"bowler", "Bowler", "Bowler", 50, 72, FielderCategory.bowler⟩, true⟩]
        "bowler" "Speedster")[1]? =
      some ⟨⟨"bowler", "Speedster", "Speedster", 50, 72, FielderCategory.bowler⟩, true⟩ :=
  ⟨(handleRenameFielder_frame
      [⟨⟨"wk", "Wicketkeeper", "WK", 50, 30, FielderCategory.keeper⟩, true⟩,
       ⟨⟨"bowler", "Bowler", "Bowler", 50, 72, FielderCategory.bowler⟩, true⟩]
      "bowler" "Speedster").2.1 0
      ⟨⟨"wk", "Wicketkeeper", "WK", 50, 30, FielderCategory.keeper⟩, true⟩
      rfl (by decide),
   (handleRenameFielder_frame
      [⟨⟨"wk", "Wicketkeeper", "WK", 50, 30, FielderCategory.keeper⟩, true⟩,
       ⟨⟨"bowler", "Bowler", "Bowler", 50, 72, FielderCategory.bowler⟩, true⟩]
      "bowler" "Speedster").2.2 1
      ⟨⟨"bowler", "Bowler", "Bowler", 50, 72, FielderCategory.bowler⟩, true⟩
      rfl rfl⟩

/-! ### C8 -/

/-- C8: a rename input that is empty or consists only of whitespace is
rejected by the edit-commit handler: it never invokes the rename, so the
scene (and in particular the token's prior name and label) is unchanged. -/
theorem handleSaveEdit_blank_rejected (fielders : List Fielder)
    (editingId : Option String) (editValue : String)
    (h : trimStr editValue = "") :
    handleSaveEdit fielders editingId editValue = fielders := by
  cases editingId with
  | none => rfl
  | some i => simp [handleSaveEdit, h]

/-- Witness for C8: committing an all-whitespace edit of the keeper leaves
the scene unchanged. -/
theorem handleSaveEdit_blank_rejected_witness :
    handleSaveEdit
        [⟨⟨"wk", "Wicketkeeper", "WK", 50, 30, FielderCategory.keeper⟩, true⟩]
        (some "wk") "   " =
      [⟨⟨"wk", "Wicketkeeper", "WK", 50, 30, FielderCategory.keeper⟩, true⟩] :=
  handleSaveEdit_blank_rejected
    [⟨⟨"wk", "Wicketkeeper", "WK", 50, 30, FielderCategory.keeper⟩, true⟩]
    (some "wk") "   " (by decide)

/-! ### C9 -/

/-- C9: an unknown preset id yields the empty scene, while each known
preset yields one active token per listed catalog id, copied from the
catalog with `isActive = true`. -/
theorem getPresetFielders_spec :
    (∀ presetId : String, (∀ pr ∈ FIELD_PRESETS, pr.id ≠ presetId) →
        getPresetFielders presetId = []) ∧
      ∀ pr ∈ FIELD_PRESETS,
        (getPresetFielders pr.id).length = pr.fielderIds.length ∧
          ∀ f ∈ getPresetFielders pr.id, f.isActive = true ∧
            ∃ p ∈ ALL_POSITIONS, f = ⟨p, true⟩ := by
  constructor
  · intro pid hall
    simp only [getPresetFielders]
    rw [List.find?_eq_none.mpr (by simpa using hall)]
  · decide

/-- Witness for C9: the id "mystery" names no preset and yields the empty
scene; the "standard" preset yields its 11 listed tokens. -/
theorem getPresetFielders_spec_witness :
    getPresetFielders "mystery" = [] ∧
      (getPresetFielders "standard").length = 11 :=
  ⟨getPresetFielders_spec.1 "mystery" (by decide),
   (getPresetFielders_spec.2
      ⟨"standard", "Standard", "Balanced field for medium-pace bowling",
       ["wk", "bowler", "slip1", "slip2", "gully", "point", "cover", "mid_off",
        "mid_on", "mid_wicket", "fine_leg"]⟩ (by decide)).1⟩

end CricketPlanner
